import Mathlib

/-!
Shallow embedding of the WUFS indirect block mapper (`indirect.c`) and proofs
about its block-resolution and truncation behaviour.

Modelling conventions:
* a physical block number is a `Nat`; `0` is the "unallocated" sentinel;
* the inode's pointer table (`bptrs`) is a function `Nat → Nat` whose indices
  `0 .. WUFS_INODE_BPTRS - 1` are meaningful;
* the contents of cached disk blocks, viewed through `b_data` as arrays of
  16-bit block pointers, are a function `disk : Nat → Nat → Nat`
  (`disk p i` = entry `i` of physical block `p`);
* the external allocator `wufs_new_block` is a stream (`List Nat`) of block
  numbers it will hand out; an empty stream (or a `0` in it) models
  exhaustion, matching the C convention that `wufs_new_block` returns `0`
  when no block is available;
* the retry loops (`goto start`, `goto start_indirection`) re-check a shared
  slot under a lock; rival threads are modelled by an interference schedule
  (`List Nat`): each allocating iteration consumes one entry giving the value
  a rival committed into the slot before our locked re-check (`0` = no rival,
  an empty schedule = no interference at all); after a lost race the retry
  observes the rival's committed value;
* side effects are logged in the output records: blocks obtained from the
  allocator (`got`), `wufs_free_block` calls (`freed`), inode timestamp
  update plus `mark_inode_dirty` (`inodeTouched`), `mark_buffer_dirty_inode`
  targets (`dirtied`), `set_buffer_new` on the caller's buffer head (`bhNew`),
  and `map_bh` on the caller's buffer head (`mapped`).
-/

/-- Return values of `wufs_get_blk` and its helpers: `0` on success,
`-EIO`, or `-ENOSPC`. -/
inductive Res where
  | ok
  | eio
  | enospc
deriving DecidableEq, Repr

/-- Number of block pointers in a WUFS inode. The header `wufs.h` is not part
of this repository snapshot; the value is pinned by the source comment in
`wufs_get_blk`: "WUFS_INODE_BPTRS-1 is 7, index of the indirect ptr". -/
def WUFS_INODE_BPTRS : Nat := 8

/-- The allocator stream: `wufs_new_block` pops the next block number; an
exhausted allocator (empty stream) returns `0`, the C failure convention. -/
def wufs_new_block : List Nat → Nat × List Nat
  | [] => (0, [])
  | n :: rest => (n, rest)

/-- Output of `retrieve_direct`: result code, `map_bh` target on the caller's
buffer head, `set_buffer_new` flag on it, final value of the slot `*ptr`,
remaining allocator stream, blocks obtained from the allocator, blocks passed
to `wufs_free_block`, and whether the inode's timestamps were updated and the
inode marked dirty. -/
structure DirOut where
  res : Res
  mapped : Option Nat
  bhNew : Bool
  slot : Nat
  alloc : List Nat
  got : List Nat
  freed : List Nat
  inodeTouched : Bool
deriving Repr

/-- Direct block retrieval (`retrieve_direct` in `indirect.c`). `slot` is the
current value of `*ptr`; `sched` is the interference schedule for the
`goto start` retry loop (see the file header). -/
def retrieve_direct (slot : Nat) (create : Bool) (alloc : List Nat) (sched : List Nat) :
    DirOut :=
  if slot ≠ 0 then
    -- *ptr is non-zero: fall through to map_bh(bh, sb, *ptr)
    { res := Res.ok, mapped := some slot, bhNew := false, slot := slot,
      alloc := alloc, got := [], freed := [], inodeTouched := false }
  else if create = false then
    -- if we're not allowed to create it, claim an I/O error
    { res := Res.eio, mapped := none, bhNew := false, slot := slot,
      alloc := alloc, got := [], freed := [], inodeTouched := false }
  else
    -- grab a new block
    let n := (wufs_new_block alloc).1
    let alloc1 := (wufs_new_block alloc).2
    if n = 0 then
      -- not possible? must have run out of space!
      { res := Res.enospc, mapped := none, bhNew := false, slot := slot,
        alloc := alloc1, got := [], freed := [], inodeTouched := false }
    else
      match sched with
      | [] =>
        -- locked re-check: still zero, commit *ptr = n, update times, dirty
        { res := Res.ok, mapped := some n, bhNew := true, slot := n,
          alloc := alloc1, got := [n], freed := [], inodeTouched := true }
      | r :: sched1 =>
        if r ≠ 0 then
          -- some other thread has set this! back out: free n, goto start
          let o := retrieve_direct r create alloc1 sched1
          { o with got := n :: o.got, freed := n :: o.freed }
        else
          { res := Res.ok, mapped := some n, bhNew := true, slot := n,
            alloc := alloc1, got := [n], freed := [], inodeTouched := true }

/-- Write one pointer entry inside the contents of a cached physical block. -/
def dset (disk : Nat → Nat → Nat) (p i v : Nat) : Nat → Nat → Nat :=
  fun q j => if q = p then (if j = i then v else disk q j) else disk q j

/-- Output of `retrieve_indirect` and of its Stage B loop: like `DirOut` but
with the whole disk view (the IndirectBlock contents live there) and the list
of `mark_buffer_dirty_inode` targets. `slot` is the final value of the
indirect slot `*ptr`. -/
structure IndOut where
  res : Res
  mapped : Option Nat
  bhNew : Bool
  slot : Nat
  disk : Nat → Nat → Nat
  alloc : List Nat
  got : List Nat
  freed : List Nat
  inodeTouched : Bool
  dirtied : List Nat

/-- Stage B of `retrieve_indirect` (label `start_indirection` in the source):
resolve the entry at `offset` inside the IndirectBlock whose physical number
is `slot`, with interference schedule `schedB` for its retry loop. Faithful
points: no `create` check is made here, and `set_buffer_new(bh)` is executed
unconditionally before `map_bh`. -/
def start_indirection (slot offset : Nat) (disk : Nat → Nat → Nat)
    (alloc schedB : List Nat) : IndOut :=
  if disk slot offset = 0 then
    -- create new datablock, mark indirection block as dirty
    let dl := (wufs_new_block alloc).1
    let alloc1 := (wufs_new_block alloc).2
    if dl = 0 then
      { res := Res.enospc, mapped := none, bhNew := false, slot := slot,
        disk := disk, alloc := alloc1, got := [], freed := [],
        inodeTouched := false, dirtied := [] }
    else
      match schedB with
      | [] =>
        -- locked re-check: still zero, commit *blk_data = data_LBA,
        -- mark_buffer_dirty_inode(indir_ptr), brelse; then the unconditional
        -- set_buffer_new(bh) and map_bh(bh, sb, data_LBA)
        { res := Res.ok, mapped := some dl, bhNew := true, slot := slot,
          disk := dset disk slot offset dl, alloc := alloc1, got := [dl],
          freed := [], inodeTouched := false, dirtied := [slot] }
      | r :: schedB1 =>
        if r ≠ 0 then
          -- some other thread has set this! back out: free data_LBA, retry
          let o := start_indirection slot offset (dset disk slot offset r) alloc1 schedB1
          { o with got := dl :: o.got, freed := dl :: o.freed }
        else
          { res := Res.ok, mapped := some dl, bhNew := true, slot := slot,
            disk := dset disk slot offset dl, alloc := alloc1, got := [dl],
            freed := [], inodeTouched := false, dirtied := [slot] }
  else
    -- retrieve existing datablock: data_LBA = *blk_data, then the
    -- unconditional set_buffer_new(bh) and map_bh(bh, sb, data_LBA)
    { res := Res.ok, mapped := some (disk slot offset), bhNew := true, slot := slot,
      disk := disk, alloc := alloc, got := [], freed := [],
      inodeTouched := false, dirtied := [] }

/-- Indirect block retrieval (`retrieve_indirect` in `indirect.c`). `slot` is
the current value of the indirect slot `*ptr`; `offset` is the index inside
the IndirectBlock; `schedA` is the interference schedule of the Stage A
(`goto start`) loop and `schedB` that of Stage B. `dl0` is the indeterminate
initial value of the local C variable `int data_LBA`, which the source
declares without initialising and passes to `wufs_free_block` on the Stage A
lost-race path before any assignment to it. Faithful point: on the Stage A
commit, `sb_getblk`'s buffer (`blk_data`) is never written, so the candidate
IndirectBlock keeps whatever `disk` previously held at that physical block. -/
def retrieve_indirect (slot : Nat) (create : Bool) (offset : Nat)
    (disk : Nat → Nat → Nat) (alloc schedA schedB : List Nat) (dl0 : Nat) : IndOut :=
  if slot ≠ 0 then
    -- *ptr exists: sb_bread(sb, *ptr), then the start_indirection loop
    start_indirection slot offset disk alloc schedB
  else if create = false then
    -- if we're not allowed to create it, claim an I/O error
    { res := Res.eio, mapped := none, bhNew := false, slot := slot, disk := disk,
      alloc := alloc, got := [], freed := [], inodeTouched := false, dirtied := [] }
  else
    -- grab a new block
    let il := (wufs_new_block alloc).1
    let alloc1 := (wufs_new_block alloc).2
    if il = 0 then
      { res := Res.enospc, mapped := none, bhNew := false, slot := slot, disk := disk,
        alloc := alloc1, got := [], freed := [], inodeTouched := false, dirtied := [] }
    else
      -- sb_getblk(sb, indirect_LBA); blk_data is taken but never written
      match schedA with
      | [] =>
        -- locked re-check: still zero, commit *ptr = indirect_LBA,
        -- mark_buffer_dirty_inode(indir_ptr), brelse, update times, dirty
        -- inode; then sb_bread(sb, *ptr) and the start_indirection loop
        let o := start_indirection il offset disk alloc1 schedB
        { o with got := il :: o.got, inodeTouched := true, dirtied := il :: o.dirtied }
      | r :: schedA1 =>
        if r ≠ 0 then
          -- some other thread has set this! back out: bforget(indir_ptr),
          -- wufs_free_block(inode, indirect_LBA),
          -- wufs_free_block(inode, data_LBA)  -- data_LBA is uninitialised!
          let o := retrieve_indirect r create offset disk alloc1 schedA1 schedB dl0
          { o with got := il :: o.got, freed := il :: dl0 :: o.freed }
        else
          let o := start_indirection il offset disk alloc1 schedB
          { o with got := il :: o.got, inodeTouched := true, dirtied := il :: o.dirtied }

/-- Output of `wufs_get_blk`: the merged view of either mapper's output, with
the whole pointer table. -/
structure Out where
  res : Res
  mapped : Option Nat
  bhNew : Bool
  bptr : Nat → Nat
  disk : Nat → Nat → Nat
  alloc : List Nat
  got : List Nat
  freed : List Nat
  inodeTouched : Bool
  dirtied : List Nat

/-- Lift a `retrieve_direct` output operating on table slot `idx` to a
`wufs_get_blk` output. -/
def DirOut.toOut (bptr : Nat → Nat) (disk : Nat → Nat → Nat) (idx : Nat) (o : DirOut) :
    Out :=
  { res := o.res, mapped := o.mapped, bhNew := o.bhNew,
    bptr := Function.update bptr idx o.slot, disk := disk,
    alloc := o.alloc, got := o.got, freed := o.freed,
    inodeTouched := o.inodeTouched, dirtied := [] }

/-- Lift a `retrieve_indirect` output (which operates on the indirect slot,
index `WUFS_INODE_BPTRS - 1`) to a `wufs_get_blk` output. -/
def IndOut.toOut (bptr : Nat → Nat) (o : IndOut) : Out :=
  { res := o.res, mapped := o.mapped, bhNew := o.bhNew,
    bptr := Function.update bptr (WUFS_INODE_BPTRS - 1) o.slot, disk := o.disk,
    alloc := o.alloc, got := o.got, freed := o.freed,
    inodeTouched := o.inodeTouched, dirtied := o.dirtied }

/-- The facade `wufs_get_blk`: range check against the superblock's
`sbi_max_fblks`, then dispatch. `block` has C type `sector_t`, which is
unsigned, so the source's `block < 0` test is vacuous and `block : Nat` here. -/
def wufs_get_blk (bptr : Nat → Nat) (disk : Nat → Nat → Nat) (block : Nat)
    (create : Bool) (max_fblks : Nat) (alloc schedA schedB : List Nat) (dl0 : Nat) :
    Out :=
  if max_fblks ≤ block then
    { res := Res.eio, mapped := none, bhNew := false, bptr := bptr, disk := disk,
      alloc := alloc, got := [], freed := [], inodeTouched := false, dirtied := [] }
  else if WUFS_INODE_BPTRS - 1 ≤ block then
    IndOut.toOut bptr
      (retrieve_indirect (bptr (WUFS_INODE_BPTRS - 1)) create
        (block - (WUFS_INODE_BPTRS - 1)) disk alloc schedA schedB dl0)
  else
    DirOut.toOut bptr disk block (retrieve_direct (bptr block) create alloc schedA)

/-- One C `for` loop of `wufs_truncate` of the shape
`for (i = lo; i < lo + count; i++) { if (f[i]) wufs_free_block(inode, f[i]); f[i] = 0; }`:
returns the updated array and the list of freed (formerly non-zero) values in
loop order. -/
def freeLoop (f : Nat → Nat) (lo count : Nat) : (Nat → Nat) × List Nat :=
  match count with
  | 0 => (f, [])
  | k + 1 =>
    let fr1 : List Nat := if f lo = 0 then [] else [f lo]
    let p := freeLoop (Function.update f lo 0) (lo + 1) k
    (p.1, fr1 ++ p.2)

/-- Output of `wufs_truncate`: final pointer table and disk view, the
`wufs_free_block` calls, the `mark_buffer_dirty_inode` targets, the `sb_bread`
targets (which physical blocks were fetched from the cache), and whether the
inode's timestamps were updated and the inode marked dirty. -/
structure TruncOut where
  bptr : Nat → Nat
  disk : Nat → Nat → Nat
  freed : List Nat
  dirtied : List Nat
  readBlks : List Nat
  inodeTouched : Bool

/-- The `wufs_truncate` routine. `blockSize` is the header constant
`WUFS_BLOCKSIZE` (the header is not in this snapshot, so it stays a
parameter); the IndirectBlock holds `blockSize / 2` pointers ("LBAS are 2
bytes"). The initial `block_truncate_page` call is page-cache work outside
this layer and is not modelled. `bcnt` is the block count
`(i_size + WUFS_BLOCKSIZE - 1) / WUFS_BLOCKSIZE`. Faithful points: in the
`bcnt < WUFS_INODE_BPTRS` case the IndirectBlock is fetched only if the
indirect slot is non-zero, its buffer is discarded with `bforget` (never
marked dirty); in the other case `sb_bread` is called on the indirect slot's
value unconditionally, even when that value is `0`. -/
def wufs_truncate (blk : Nat → Nat) (disk : Nat → Nat → Nat) (i_size blockSize : Nat) :
    TruncOut :=
  let bcnt := (i_size + blockSize - 1) / blockSize
  if bcnt < WUFS_INODE_BPTRS then
    -- set all blocks referenced beyond file size to 0 (null)
    let p := freeLoop blk bcnt (WUFS_INODE_BPTRS - 1 - bcnt)
    -- wipe out indirection if necessary
    let indirect_LBA := p.1 (WUFS_INODE_BPTRS - 1)
    if indirect_LBA ≠ 0 then
      let q := freeLoop (disk indirect_LBA) 0 (blockSize / 2)
      { bptr := Function.update p.1 (WUFS_INODE_BPTRS - 1) 0,
        disk := fun b => if b = indirect_LBA then q.1 else disk b,
        freed := p.2 ++ q.2 ++ [indirect_LBA],
        dirtied := [],
        readBlks := [indirect_LBA],
        inodeTouched := true }
    else
      { bptr := p.1, disk := disk, freed := p.2, dirtied := [], readBlks := [],
        inodeTouched := true }
  else
    -- we have to enter our indirect blocks
    let bcnt1 := bcnt - (WUFS_INODE_BPTRS - 1)
    let indirect_LBA := blk (WUFS_INODE_BPTRS - 1)
    let q := freeLoop (disk indirect_LBA) bcnt1 (blockSize / 2 - bcnt1)
    { bptr := blk,
      disk := fun b => if b = indirect_LBA then q.1 else disk b,
      freed := q.2,
      dirtied := [indirect_LBA],
      readBlks := [indirect_LBA],
      inodeTouched := true }

/-! ### Helper lemmas about the truncation loop -/

/-- Pointwise description of the array after a free-and-zero loop: every index
in `[lo, lo + count)` is zeroed, everything else is untouched. -/
theorem freeLoop_fst (count : Nat) : ∀ (f : Nat → Nat) (lo j : Nat),
    (freeLoop f lo count).1 j = if lo ≤ j ∧ j < lo + count then 0 else f j := by
  induction count with
  | zero =>
    intro f lo j
    simp only [freeLoop]
    rw [if_neg (by omega)]
  | succ k ih =>
    intro f lo j
    simp only [freeLoop]
    rw [ih]
    rcases eq_or_ne j lo with rfl | hne
    · rw [if_neg (by omega), Function.update_same, if_pos (by omega)]
    · rw [Function.update_noteq hne]
      by_cases h : lo + 1 ≤ j ∧ j < lo + 1 + k
      · rw [if_pos h, if_pos (by omega)]
      · rw [if_neg h, if_neg (by omega)]

/-- The freed list of a free-and-zero loop is exactly the non-zero values of
the traversed range, in order. -/
theorem freeLoop_snd (count : Nat) : ∀ (f : Nat → Nat) (lo : Nat),
    (freeLoop f lo count).2 =
      ((List.range' lo count).map f).filter (fun v => v != 0) := by
  induction count with
  | zero => intro f lo; simp [freeLoop]
  | succ k ih =>
    intro f lo
    simp only [freeLoop]
    rw [ih, List.range'_succ]
    have hmap : (List.range' (lo + 1) k).map (Function.update f lo 0) =
        (List.range' (lo + 1) k).map f := by
      apply List.map_congr_left
      intro x hx
      have hx1 : lo + 1 ≤ x := (List.mem_range'_1.mp hx).1
      exact Function.update_noteq (by omega) 0 f
    rw [hmap]
    by_cases h : f lo = 0
    · simp [h]
    · simp [h]

/-- Every non-zero value inside the traversed range ends up in the freed
list. -/
theorem freeLoop_mem (f : Nat → Nat) (lo count j : Nat) (h1 : lo ≤ j)
    (h2 : j < lo + count) (h3 : f j ≠ 0) : f j ∈ (freeLoop f lo count).2 := by
  rw [freeLoop_snd]
  refine List.mem_filter.mpr ⟨List.mem_map.mpr ⟨j, ?_, rfl⟩, by simpa using h3⟩
  exact List.mem_range'_1.mpr ⟨h1, h2⟩

/-! ### Claims -/

/-- C1: the claim states that for every in-range hole, `resolve(b, create=false)`
returns NotAllocated and performs no allocation or mutation, in particular for
an indirect-range block whose IndirectBlock exists but whose entry is still 0.
The code violates this: the Stage B loop (`start_indirection`) never consults
`create`, so with the IndirectBlock at physical block 5 and entry 0 a hole,
`wufs_get_blk(block=7, create=0)` allocates block 9 from the pool, commits it
into the IndirectBlock entry, marks the buffer dirty and returns it mapped
with return code 0 instead of failing with `-EIO`. -/
theorem C1_hole_create_false_still_allocates :
    (wufs_get_blk (fun i => if i = 7 then 5 else 0) (fun _ _ => 0) 7 false 20 [9] [] [] 0).res
        = Res.ok ∧
    (wufs_get_blk (fun i => if i = 7 then 5 else 0) (fun _ _ => 0) 7 false 20 [9] [] [] 0).got
        = [9] ∧
    (wufs_get_blk (fun i => if i = 7 then 5 else 0) (fun _ _ => 0) 7 false 20 [9] [] [] 0).disk 5 0
        = 9 ∧
    (wufs_get_blk (fun i => if i = 7 then 5 else 0) (fun _ _ => 0) 7 false 20 [9] [] [] 0).mapped
        = some 9 ∧
    (wufs_get_blk (fun i => if i = 7 then 5 else 0) (fun _ _ => 0) 7 false 20 [9] [] [] 0).dirtied
        = [5] := by
  decide

/-- C2: the claim states that a lost commit race triggers exactly one
`wufs_free_block` call, with the losing attempt's own candidate block and no
other block. The code violates this on the Stage A (indirect-slot) race: the
local `int data_LBA` is declared uninitialised, and the lost-race path frees
both the candidate indirect block and `data_LBA` before any assignment to it.
With candidate 10, a rival committing 3 before the locked re-check, and the
indeterminate `data_LBA` holding 777, the losing attempt issues two frees,
`[10, 777]`, where 777 was never obtained from the allocator at all. -/
theorem C2_stage_a_lost_race_frees_uninitialised :
    (wufs_get_blk (fun _ => 0) (fun _ _ => 0) 7 true 20 [10, 11] [3] [] 777).freed
        = [10, 777] ∧
    (wufs_get_blk (fun _ => 0) (fun _ _ => 0) 7 true 20 [10, 11] [3] [] 777).got
        = [10, 11] ∧
    777 ∉ (wufs_get_blk (fun _ => 0) (fun _ _ => 0) 7 true 20 [10, 11] [3] [] 777).got := by
  decide

/-- C3: the claim states that the Stage A candidate IndirectBlock is
initialised as a zero-filled pointer array before its block number is
committed, so every entry of a fresh IndirectBlock reads 0. The code violates
this: `blk_data` is computed from `sb_getblk`'s buffer but never written, so
the committed IndirectBlock keeps whatever the cached block previously held.
With the allocator handing out physical block 9 whose stale contents hold 42
at entry 1, `wufs_get_blk(block=7, create=1)` commits 9 into the indirect
slot, yet entry 1 of the freshly created IndirectBlock reads 42, not 0 — and
a subsequent `wufs_get_blk(block=8, create=0)` happily serves that stale 42
as an allocated mapping. -/
theorem C3_fresh_indirect_block_not_zero_filled :
    (wufs_get_blk (fun _ => 0) (fun p j => if p = 9 ∧ j = 1 then 42 else 0) 7 true 20
        [9, 10] [] [] 0).bptr 7 = 9 ∧
    (wufs_get_blk (fun _ => 0) (fun p j => if p = 9 ∧ j = 1 then 42 else 0) 7 true 20
        [9, 10] [] [] 0).disk 9 1 = 42 ∧
    (wufs_get_blk (fun i => if i = 7 then 9 else 0) (fun p j => if p = 9 ∧ j = 1 then 42 else 0)
        8 false 20 [] [] [] 0).mapped = some 42 := by
  decide

/-- C6: the claim states that the "new" flag is set if and only if the call
itself committed a new physical block, in either range. The code violates
this in the indirect range: `set_buffer_new(bh)` sits after the Stage B
if/else, so it runs on every successful indirect resolve. With the
IndirectBlock at 5 and entry 0 already mapped to 11, `wufs_get_blk(block=7,
create=1)` allocates nothing (`got = []`) yet flags the caller's buffer as
new; an already-mapped direct slot (block 3 mapped to 12), by contrast, is
not flagged. -/
theorem C6_indirect_always_flags_new :
    (wufs_get_blk (fun i => if i = 7 then 5 else 0)
        (fun p j => if p = 5 ∧ j = 0 then 11 else 0) 7 true 20 [] [] [] 0).bhNew = true ∧
    (wufs_get_blk (fun i => if i = 7 then 5 else 0)
        (fun p j => if p = 5 ∧ j = 0 then 11 else 0) 7 true 20 [] [] [] 0).got = [] ∧
    (wufs_get_blk (fun i => if i = 7 then 5 else 0)
        (fun p j => if p = 5 ∧ j = 0 then 11 else 0) 7 true 20 [] [] [] 0).mapped = some 11 ∧
    (wufs_get_blk (fun i => if i = 3 then 12 else 0) (fun _ _ => 0) 3 true 20 [] [] [] 0).bhNew
        = false := by
  decide

/-- C8 counterexample: the claim states that the out-of-range error is a typed
result distinct from the NotAllocated result of an in-range hole with
`create=false`. In the code both paths return the very same `-EIO`: with
`max_fblks = 4`, block 10 (out of range) and block 0 (an in-range hole read
without `create`) produce equal results. -/
theorem C8_range_error_equals_hole_error :
    (wufs_get_blk (fun _ => 0) (fun _ _ => 0) 10 false 4 [] [] [] 0).res = Res.eio ∧
    (wufs_get_blk (fun _ => 0) (fun _ _ => 0) 0 false 4 [] [] [] 0).res = Res.eio ∧
    (wufs_get_blk (fun _ => 0) (fun _ _ => 0) 10 false 4 [] [] [] 0).res =
      (wufs_get_blk (fun _ => 0) (fun _ _ => 0) 0 false 4 [] [] [] 0).res := by
  decide

/-- C9 counterexample: the claim states that every newly-performed allocation
— including a Stage B entry commit — updates the inode's timestamps and marks
the inode dirty. In the code a Stage B commit into an already-existing
IndirectBlock (slot 7 holds 5, entry 0 a hole, allocator hands out 11) marks
only the IndirectBlock's buffer dirty and leaves the inode untouched. -/
theorem C9_stage_b_commit_skips_inode :
    (wufs_get_blk (fun i => if i = 7 then 5 else 0) (fun _ _ => 0) 7 true 20 [11] [] [] 0).got
        = [11] ∧
    (wufs_get_blk (fun i => if i = 7 then 5 else 0) (fun _ _ => 0) 7 true 20 [11] [] [] 0).inodeTouched
        = false ∧
    (wufs_get_blk (fun i => if i = 7 then 5 else 0) (fun _ _ => 0) 7 true 20 [11] [] [] 0).dirtied
        = [5] := by
  decide

/-- C5: for every logical block `b < WUFS_INODE_BPTRS - 1 = 7` the facade
dispatches to the direct mapper on table slot `b`, and for every in-range
`b ≥ 7` it dispatches to the indirect mapper at offset `b - 7`; with
`WUFS_INODE_BPTRS = 8`, block 6 is the last direct block and block 7 reaches
IndirectBlock entry 0. -/
theorem C5_facade_dispatch (bptr : Nat → Nat) (disk : Nat → Nat → Nat) (b : Nat)
    (create : Bool) (max_fblks : Nat) (alloc schedA schedB : List Nat) (dl0 : Nat)
    (hb : b < max_fblks) :
    WUFS_INODE_BPTRS = 8 ∧
    (b < WUFS_INODE_BPTRS - 1 →
      wufs_get_blk bptr disk b create max_fblks alloc schedA schedB dl0 =
        DirOut.toOut bptr disk b (retrieve_direct (bptr b) create alloc schedA)) ∧
    (WUFS_INODE_BPTRS - 1 ≤ b →
      wufs_get_blk bptr disk b create max_fblks alloc schedA schedB dl0 =
        IndOut.toOut bptr
          (retrieve_indirect (bptr (WUFS_INODE_BPTRS - 1)) create
            (b - (WUFS_INODE_BPTRS - 1)) disk alloc schedA schedB dl0)) := by
  refine ⟨rfl, ?_, ?_⟩
  · intro hlt
    simp only [WUFS_INODE_BPTRS] at hlt
    rw [wufs_get_blk, if_neg (by omega)]
    rw [if_neg (by simp only [WUFS_INODE_BPTRS]; omega)]
  · intro hge
    simp only [WUFS_INODE_BPTRS] at hge
    rw [wufs_get_blk, if_neg (by omega)]
    rw [if_pos (by simp only [WUFS_INODE_BPTRS]; omega)]

/-- Witness for C5 at the boundary input of the claim: logical block 7 with
`max_fblks = 20` dispatches to the indirect mapper at offset 0. -/
theorem C5_facade_dispatch_witness :
    (7 : Nat) < 20 ∧
    (WUFS_INODE_BPTRS = 8 ∧
     (7 < WUFS_INODE_BPTRS - 1 →
       wufs_get_blk (fun _ => 0) (fun _ _ => 0) 7 true 20 [9] [] [] 0 =
         DirOut.toOut (fun _ => 0) (fun _ _ => 0) 7
           (retrieve_direct ((fun _ : Nat => 0) 7) true [9] [])) ∧
     (WUFS_INODE_BPTRS - 1 ≤ 7 →
       wufs_get_blk (fun _ => 0) (fun _ _ => 0) 7 true 20 [9] [] [] 0 =
         IndOut.toOut (fun _ => 0)
           (retrieve_indirect ((fun _ : Nat => 0) (WUFS_INODE_BPTRS - 1)) true
             (7 - (WUFS_INODE_BPTRS - 1)) (fun _ _ => 0) [9] [] [] 0))) :=
  ⟨by decide, C5_facade_dispatch (fun _ => 0) (fun _ _ => 0) 7 true 20 [9] [] [] 0 (by decide)⟩

/-- C7: if the allocator reports exhaustion (an empty stream, so
`wufs_new_block` returns 0) during `resolve(b, create=true)` on an
unallocated direct slot, an unallocated indirect slot, or an unallocated
IndirectBlock entry, the call returns `-ENOSPC` and leaves the pointer table,
the disk contents and every side-effect log untouched — the slot or entry
still holds 0. -/
theorem C7_exhaustion_leaves_no_partial_state (bptr : Nat → Nat)
    (disk : Nat → Nat → Nat) (b max_fblks : Nat) (schedA schedB : List Nat) (dl0 : Nat)
    (hb : b < max_fblks)
    (hole : (b < WUFS_INODE_BPTRS - 1 ∧ bptr b = 0) ∨
            (WUFS_INODE_BPTRS - 1 ≤ b ∧ bptr (WUFS_INODE_BPTRS - 1) = 0) ∨
            (WUFS_INODE_BPTRS - 1 ≤ b ∧ bptr (WUFS_INODE_BPTRS - 1) ≠ 0 ∧
              disk (bptr (WUFS_INODE_BPTRS - 1)) (b - (WUFS_INODE_BPTRS - 1)) = 0)) :
    (wufs_get_blk bptr disk b true max_fblks [] schedA schedB dl0).res = Res.enospc ∧
    (wufs_get_blk bptr disk b true max_fblks [] schedA schedB dl0).bptr = bptr ∧
    (wufs_get_blk bptr disk b true max_fblks [] schedA schedB dl0).disk = disk ∧
    (wufs_get_blk bptr disk b true max_fblks [] schedA schedB dl0).got = [] ∧
    (wufs_get_blk bptr disk b true max_fblks [] schedA schedB dl0).freed = [] ∧
    (wufs_get_blk bptr disk b true max_fblks [] schedA schedB dl0).inodeTouched = false ∧
    (wufs_get_blk bptr disk b true max_fblks [] schedA schedB dl0).dirtied = [] := by
  have h1 : ¬ max_fblks ≤ b := by omega
  rcases hole with ⟨hdb, hz⟩ | ⟨hib, hz⟩ | ⟨hib, hnz, hz⟩
  · have h2 : ¬ (WUFS_INODE_BPTRS - 1 ≤ b) := by omega
    have hupd : Function.update bptr b 0 = bptr := by
      rw [← hz]; exact Function.update_eq_self b bptr
    cases schedA <;>
      simp [wufs_get_blk, h1, h2, retrieve_direct, hz, wufs_new_block,
        DirOut.toOut, hupd]
  · have hupd : Function.update bptr (WUFS_INODE_BPTRS - 1) 0 = bptr := by
      rw [← hz]; exact Function.update_eq_self _ bptr
    cases schedA <;>
      simp [wufs_get_blk, h1, hib, retrieve_indirect, hz, wufs_new_block,
        IndOut.toOut, hupd]
  · have hupd : Function.update bptr (WUFS_INODE_BPTRS - 1)
        (bptr (WUFS_INODE_BPTRS - 1)) = bptr := Function.update_eq_self _ bptr
    cases schedA <;> cases schedB <;>
      simp [wufs_get_blk, h1, hib, retrieve_indirect, start_indirection, hnz, hz,
        wufs_new_block, IndOut.toOut, hupd]

/-- Witness for C7 on the direct range: an exhausted allocator with slot 2 a
hole yields `-ENOSPC` and no state change. -/
theorem C7_exhaustion_witness :
    ((2 : Nat) < 20 ∧
      ((2 < WUFS_INODE_BPTRS - 1 ∧ (fun _ : Nat => 0) 2 = 0) ∨
       (WUFS_INODE_BPTRS - 1 ≤ 2 ∧ (fun _ : Nat => 0) (WUFS_INODE_BPTRS - 1) = 0) ∨
       (WUFS_INODE_BPTRS - 1 ≤ 2 ∧ (fun _ : Nat => 0) (WUFS_INODE_BPTRS - 1) ≠ 0 ∧
         (fun _ _ : Nat => 0) ((fun _ : Nat => 0) (WUFS_INODE_BPTRS - 1))
           (2 - (WUFS_INODE_BPTRS - 1)) = 0))) ∧
    ((wufs_get_blk (fun _ => 0) (fun _ _ => 0) 2 true 20 [] [] [] 0).res = Res.enospc ∧
     (wufs_get_blk (fun _ => 0) (fun _ _ => 0) 2 true 20 [] [] [] 0).bptr = (fun _ => 0) ∧
     (wufs_get_blk (fun _ => 0) (fun _ _ => 0) 2 true 20 [] [] [] 0).disk = (fun _ _ => 0) ∧
     (wufs_get_blk (fun _ => 0) (fun _ _ => 0) 2 true 20 [] [] [] 0).got = [] ∧
     (wufs_get_blk (fun _ => 0) (fun _ _ => 0) 2 true 20 [] [] [] 0).freed = [] ∧
     (wufs_get_blk (fun _ => 0) (fun _ _ => 0) 2 true 20 [] [] [] 0).inodeTouched = false ∧
     (wufs_get_blk (fun _ => 0) (fun _ _ => 0) 2 true 20 [] [] [] 0).dirtied = []) :=
  ⟨⟨by decide, Or.inl ⟨by decide, rfl⟩⟩,
    C7_exhaustion_leaves_no_partial_state (fun _ => 0) (fun _ _ => 0) 2 20 [] [] 0
      (by decide) (Or.inl ⟨by decide, rfl⟩)⟩

/-- C10: `wufs_truncate` guards the IndirectBlock with an
`if (indirect_LBA)` check only in the `bcnt < WUFS_INODE_BPTRS` case — there
a zero indirect slot means nothing beyond the direct range is fetched,
mutated or dirtied. In the `bcnt ≥ WUFS_INODE_BPTRS` case it unconditionally
`sb_bread`s the block named by the indirect slot, so with the slot still 0 it
fetches physical block 0 (the "unallocated" sentinel), zeroes its entries
from `bcnt - (WUFS_INODE_BPTRS - 1)` on, frees whatever non-zero values they
held, and marks block 0's buffer dirty: the fetch is safe only under the
precondition that the indirect slot is non-zero whenever the file still
needs the indirect range. -/
theorem C10_truncate_trusts_indirect_slot (blk : Nat → Nat) (disk : Nat → Nat → Nat)
    (i_size blockSize bcnt M : Nat)
    (hbcnt : bcnt = (i_size + blockSize - 1) / blockSize)
    (hM : M = blockSize / 2)
    (hz : blk (WUFS_INODE_BPTRS - 1) = 0) :
    (bcnt < WUFS_INODE_BPTRS →
      (wufs_truncate blk disk i_size blockSize).readBlks = [] ∧
      (wufs_truncate blk disk i_size blockSize).disk = disk ∧
      (wufs_truncate blk disk i_size blockSize).dirtied = []) ∧
    (WUFS_INODE_BPTRS ≤ bcnt →
      (wufs_truncate blk disk i_size blockSize).readBlks = [0] ∧
      (wufs_truncate blk disk i_size blockSize).dirtied = [0] ∧
      (∀ j, bcnt - (WUFS_INODE_BPTRS - 1) ≤ j → j < M →
        (wufs_truncate blk disk i_size blockSize).disk 0 j = 0) ∧
      (∀ j, bcnt - (WUFS_INODE_BPTRS - 1) ≤ j → j < M → disk 0 j ≠ 0 →
        disk 0 j ∈ (wufs_truncate blk disk i_size blockSize).freed)) := by
  have hD : WUFS_INODE_BPTRS = 8 := rfl
  subst hbcnt; subst hM
  by_cases hc : (i_size + blockSize - 1) / blockSize < WUFS_INODE_BPTRS
  · refine ⟨fun _ => ?_, fun hge => absurd hc (by omega)⟩
    have hp7 : (freeLoop blk ((i_size + blockSize - 1) / blockSize)
        (WUFS_INODE_BPTRS - 1 - (i_size + blockSize - 1) / blockSize)).1
        (WUFS_INODE_BPTRS - 1) = 0 := by
      rw [freeLoop_fst, if_neg (by omega)]
      exact hz
    simp only [wufs_truncate, if_pos hc, hp7]
    simp
  · refine ⟨fun hlt => absurd hlt hc, fun hge => ?_⟩
    simp only [wufs_truncate, if_neg hc, hz]
    refine ⟨by trivial, by trivial, ?_, ?_⟩
    · intro j hj1 hj2
      rw [if_true, freeLoop_fst, if_pos (by omega)]
    · intro j hj1 hj2 hnz
      exact freeLoop_mem (disk 0) _ _ j hj1 (by omega) hnz

/-- Witness for C10: blockSize 8 (4 entries per IndirectBlock), truncation to
65 bytes (9 blocks needed), indirect slot 0, stale entry 55 at offset 3 of
physical block 0 — the truncate fetches block 0, zeroes that entry, frees 55
and dirties block 0. -/
theorem C10_truncate_trusts_indirect_slot_witness :
    ((9 : Nat) = (65 + 8 - 1) / 8 ∧ (4 : Nat) = 8 / 2 ∧
      (fun _ : Nat => 0) (WUFS_INODE_BPTRS - 1) = 0) ∧
    ((9 < WUFS_INODE_BPTRS →
      (wufs_truncate (fun _ => 0) (fun p j => if p = 0 ∧ j = 3 then 55 else 0) 65 8).readBlks = [] ∧
      (wufs_truncate (fun _ => 0) (fun p j => if p = 0 ∧ j = 3 then 55 else 0) 65 8).disk =
        (fun p j => if p = 0 ∧ j = 3 then 55 else 0) ∧
      (wufs_truncate (fun _ => 0) (fun p j => if p = 0 ∧ j = 3 then 55 else 0) 65 8).dirtied = []) ∧
    (WUFS_INODE_BPTRS ≤ 9 →
      (wufs_truncate (fun _ => 0) (fun p j => if p = 0 ∧ j = 3 then 55 else 0) 65 8).readBlks = [0] ∧
      (wufs_truncate (fun _ => 0) (fun p j => if p = 0 ∧ j = 3 then 55 else 0) 65 8).dirtied = [0] ∧
      (∀ j, 9 - (WUFS_INODE_BPTRS - 1) ≤ j → j < 4 →
        (wufs_truncate (fun _ => 0) (fun p j => if p = 0 ∧ j = 3 then 55 else 0) 65 8).disk 0 j = 0) ∧
      (∀ j, 9 - (WUFS_INODE_BPTRS - 1) ≤ j → j < 4 →
        (fun p j => if p = 0 ∧ j = 3 then 55 else 0) 0 j ≠ 0 →
        (fun p j => if p = 0 ∧ j = 3 then 55 else 0) 0 j ∈
          (wufs_truncate (fun _ => 0) (fun p j => if p = 0 ∧ j = 3 then 55 else 0) 65 8).freed))) :=
  ⟨⟨by decide, by decide, rfl⟩,
    C10_truncate_trusts_indirect_slot (fun _ => 0)
      (fun p j => if p = 0 ∧ j = 3 then 55 else 0) 65 8 9 4 (by decide) (by decide) rfl⟩

/-- C4: with `bcnt = ceil(i_size / blockSize)`, `wufs_truncate` zeroes every
direct slot with index in `[bcnt, WUFS_INODE_BPTRS - 1)` and frees the
non-zero ones; when `bcnt ≤ WUFS_INODE_BPTRS - 1` and the indirect slot is
non-zero it frees every non-zero IndirectBlock entry, zeroes the whole
pointer array, frees the IndirectBlock's own backing block and zeroes the
indirect slot; when `bcnt > WUFS_INODE_BPTRS - 1` it frees and zeroes exactly
the entries at index `≥ bcnt - (WUFS_INODE_BPTRS - 1)`, leaving lower entries
and the whole pointer table (the indirect slot included) untouched. -/
theorem C4_truncate_frees_beyond_boundary (blk : Nat → Nat) (disk : Nat → Nat → Nat)
    (i_size blockSize bcnt M L : Nat)
    (_hbs : 0 < blockSize)
    (hbcnt : bcnt = (i_size + blockSize - 1) / blockSize)
    (hM : M = blockSize / 2)
    (hL : L = blk (WUFS_INODE_BPTRS - 1)) :
    (∀ i, i < WUFS_INODE_BPTRS - 1 →
      (wufs_truncate blk disk i_size blockSize).bptr i = if bcnt ≤ i then 0 else blk i) ∧
    (∀ i, bcnt ≤ i → i < WUFS_INODE_BPTRS - 1 → blk i ≠ 0 →
      blk i ∈ (wufs_truncate blk disk i_size blockSize).freed) ∧
    (bcnt ≤ WUFS_INODE_BPTRS - 1 → L ≠ 0 →
      (wufs_truncate blk disk i_size blockSize).bptr (WUFS_INODE_BPTRS - 1) = 0 ∧
      (∀ j, j < M → (wufs_truncate blk disk i_size blockSize).disk L j = 0) ∧
      (∀ j, j < M → disk L j ≠ 0 →
        disk L j ∈ (wufs_truncate blk disk i_size blockSize).freed) ∧
      L ∈ (wufs_truncate blk disk i_size blockSize).freed) ∧
    (WUFS_INODE_BPTRS - 1 < bcnt →
      (wufs_truncate blk disk i_size blockSize).bptr = blk ∧
      (∀ j, (wufs_truncate blk disk i_size blockSize).disk L j =
        if bcnt - (WUFS_INODE_BPTRS - 1) ≤ j ∧ j < M then 0 else disk L j) ∧
      (wufs_truncate blk disk i_size blockSize).freed =
        ((List.range' (bcnt - (WUFS_INODE_BPTRS - 1))
            (M - (bcnt - (WUFS_INODE_BPTRS - 1)))).map (disk L)).filter
          (fun v => v != 0)) := by
  have hD : WUFS_INODE_BPTRS = 8 := rfl
  subst hbcnt; subst hM; subst hL
  simp only [wufs_truncate]
  by_cases hc : (i_size + blockSize - 1) / blockSize < WUFS_INODE_BPTRS
  · simp only [if_pos hc]
    have hp1 : ∀ j, (freeLoop blk ((i_size + blockSize - 1) / blockSize)
        (WUFS_INODE_BPTRS - 1 - (i_size + blockSize - 1) / blockSize)).1 j =
        if (i_size + blockSize - 1) / blockSize ≤ j ∧ j < WUFS_INODE_BPTRS - 1 then 0
        else blk j := by
      intro j
      rw [freeLoop_fst]
      by_cases h : (i_size + blockSize - 1) / blockSize ≤ j ∧ j < WUFS_INODE_BPTRS - 1
      · rw [if_pos (by omega), if_pos h]
      · rw [if_neg (by omega), if_neg h]
    have hp7 : (freeLoop blk ((i_size + blockSize - 1) / blockSize)
        (WUFS_INODE_BPTRS - 1 - (i_size + blockSize - 1) / blockSize)).1
        (WUFS_INODE_BPTRS - 1) = blk (WUFS_INODE_BPTRS - 1) := by
      rw [hp1, if_neg (by omega)]
    rw [hp7]
    by_cases hL0 : blk (WUFS_INODE_BPTRS - 1) = 0
    · rw [if_neg (by simpa using hL0)]
      dsimp only
      refine ⟨?_, ?_, ?_, ?_⟩
      · intro i hi
        rw [hp1]
        by_cases h2 : (i_size + blockSize - 1) / blockSize ≤ i
        · rw [if_pos (by omega), if_pos h2]
        · rw [if_neg (by omega), if_neg h2]
      · intro i h1 h2 h3
        exact freeLoop_mem blk _ _ i h1 (by omega) h3
      · intro _ hL0'
        exact absurd hL0 hL0'
      · intro hgt
        exact absurd hc (by omega)
    · rw [if_pos (by simpa using hL0)]
      dsimp only
      refine ⟨?_, ?_, ?_, ?_⟩
      · intro i hi
        rw [Function.update_noteq (by omega), hp1]
        by_cases h2 : (i_size + blockSize - 1) / blockSize ≤ i
        · rw [if_pos (by omega), if_pos h2]
        · rw [if_neg (by omega), if_neg h2]
      · intro i h1 h2 h3
        refine List.mem_append.mpr (Or.inl (List.mem_append.mpr (Or.inl ?_)))
        exact freeLoop_mem blk _ _ i h1 (by omega) h3
      · intro hle _
        refine ⟨Function.update_same _ _ _, ?_, ?_, ?_⟩
        · intro j hj
          rw [if_pos rfl, freeLoop_fst, if_pos (by omega)]
        · intro j hj hnz
          refine List.mem_append.mpr (Or.inl (List.mem_append.mpr (Or.inr ?_)))
          exact freeLoop_mem (disk (blk (WUFS_INODE_BPTRS - 1))) 0 _ j (by omega)
            (by omega) hnz
        · exact List.mem_append.mpr (Or.inr (by simp))
      · intro hgt
        exact absurd hc (by omega)
  · simp only [if_neg hc]
    refine ⟨?_, ?_, ?_, ?_⟩
    · intro i hi
      rw [if_neg (by omega)]
    · intro i h1 h2 h3
      exact absurd h1 (by omega)
    · intro hle _
      exact absurd hle (by omega)
    · intro hgt
      refine ⟨by trivial, ?_, ?_⟩
      · intro j
        rw [if_true, freeLoop_fst]
        by_cases h : (i_size + blockSize - 1) / blockSize - (WUFS_INODE_BPTRS - 1) ≤ j ∧
            j < blockSize / 2
        · rw [if_pos (by omega), if_pos h]
        · rw [if_neg (by omega), if_neg h]
      · rw [freeLoop_snd]

/-- Witness for C4 on the spec's end-to-end scenario: blockSize 8 (4 entries
per IndirectBlock), table `[10,11,0,0,0,0,16,20]`, IndirectBlock 20 holding
`[21,0,0,0]`, truncation to 56 bytes (7 blocks needed): the whole indirect
structure is torn down. -/
theorem C4_truncate_frees_beyond_boundary_witness :
    ((0 : Nat) < 8 ∧ (7 : Nat) = (56 + 8 - 1) / 8 ∧ (4 : Nat) = 8 / 2 ∧
      (20 : Nat) = (fun i => if i = 0 then 10 else if i = 1 then 11 else
        if i = 6 then 16 else if i = 7 then 20 else 0) (WUFS_INODE_BPTRS - 1)) ∧
    ((∀ i, i < WUFS_INODE_BPTRS - 1 →
      (wufs_truncate (fun i => if i = 0 then 10 else if i = 1 then 11 else
          if i = 6 then 16 else if i = 7 then 20 else 0)
        (fun p j => if p = 20 ∧ j = 0 then 21 else 0) 56 8).bptr i =
        if 7 ≤ i then 0 else (fun i => if i = 0 then 10 else if i = 1 then 11 else
          if i = 6 then 16 else if i = 7 then 20 else 0) i) ∧
    (∀ i, 7 ≤ i → i < WUFS_INODE_BPTRS - 1 →
      (fun i => if i = 0 then 10 else if i = 1 then 11 else
        if i = 6 then 16 else if i = 7 then 20 else 0) i ≠ 0 →
      (fun i => if i = 0 then 10 else if i = 1 then 11 else
        if i = 6 then 16 else if i = 7 then 20 else 0) i ∈
        (wufs_truncate (fun i => if i = 0 then 10 else if i = 1 then 11 else
            if i = 6 then 16 else if i = 7 then 20 else 0)
          (fun p j => if p = 20 ∧ j = 0 then 21 else 0) 56 8).freed) ∧
    (7 ≤ WUFS_INODE_BPTRS - 1 → (20 : Nat) ≠ 0 →
      (wufs_truncate (fun i => if i = 0 then 10 else if i = 1 then 11 else
          if i = 6 then 16 else if i = 7 then 20 else 0)
        (fun p j => if p = 20 ∧ j = 0 then 21 else 0) 56 8).bptr (WUFS_INODE_BPTRS - 1) = 0 ∧
      (∀ j, j < 4 →
        (wufs_truncate (fun i => if i = 0 then 10 else if i = 1 then 11 else
            if i = 6 then 16 else if i = 7 then 20 else 0)
          (fun p j => if p = 20 ∧ j = 0 then 21 else 0) 56 8).disk 20 j = 0) ∧
      (∀ j, j < 4 → (fun p j => if p = 20 ∧ j = 0 then 21 else 0) 20 j ≠ 0 →
        (fun p j => if p = 20 ∧ j = 0 then 21 else 0) 20 j ∈
          (wufs_truncate (fun i => if i = 0 then 10 else if i = 1 then 11 else
              if i = 6 then 16 else if i = 7 then 20 else 0)
            (fun p j => if p = 20 ∧ j = 0 then 21 else 0) 56 8).freed) ∧
      (20 : Nat) ∈ (wufs_truncate (fun i => if i = 0 then 10 else if i = 1 then 11 else
          if i = 6 then 16 else if i = 7 then 20 else 0)
        (fun p j => if p = 20 ∧ j = 0 then 21 else 0) 56 8).freed) ∧
    (WUFS_INODE_BPTRS - 1 < 7 →
      (wufs_truncate (fun i => if i = 0 then 10 else if i = 1 then 11 else
          if i = 6 then 16 else if i = 7 then 20 else 0)
        (fun p j => if p = 20 ∧ j = 0 then 21 else 0) 56 8).bptr =
        (fun i => if i = 0 then 10 else if i = 1 then 11 else
          if i = 6 then 16 else if i = 7 then 20 else 0) ∧
      (∀ j, (wufs_truncate (fun i => if i = 0 then 10 else if i = 1 then 11 else
            if i = 6 then 16 else if i = 7 then 20 else 0)
          (fun p j => if p = 20 ∧ j = 0 then 21 else 0) 56 8).disk 20 j =
        if 7 - (WUFS_INODE_BPTRS - 1) ≤ j ∧ j < 4 then 0
        else (fun p j => if p = 20 ∧ j = 0 then 21 else 0) 20 j) ∧
      (wufs_truncate (fun i => if i = 0 then 10 else if i = 1 then 11 else
          if i = 6 then 16 else if i = 7 then 20 else 0)
        (fun p j => if p = 20 ∧ j = 0 then 21 else 0) 56 8).freed =
        ((List.range' (7 - (WUFS_INODE_BPTRS - 1)) (4 - (7 - (WUFS_INODE_BPTRS - 1)))).map
            ((fun p j => if p = 20 ∧ j = 0 then 21 else 0) 20)).filter
          (fun v => v != 0))) :=
  ⟨⟨by decide, by decide, by decide, by decide⟩,
    C4_truncate_frees_beyond_boundary
      (fun i => if i = 0 then 10 else if i = 1 then 11 else
        if i = 6 then 16 else if i = 7 then 20 else 0)
      (fun p j => if p = 20 ∧ j = 0 then 21 else 0) 56 8 7 4 20
      (by decide) (by decide) (by decide) (by decide)⟩

/-- C8 (amended): every logical block at or above `max_fblks` is rejected by
the facade's range check with `-EIO` before either mapper runs and with no
state change or side effect (logical block numbers are unsigned `sector_t`,
so negative values cannot occur); however that is the same `-EIO` value that
the mappers return for an in-range hole read with `create=false`, so the
error value does not distinguish the out-of-range case from the
not-allocated case. -/
theorem C8_amended_range_check (bptr bptr2 : Nat → Nat) (disk disk2 : Nat → Nat → Nat)
    (b b2 max_fblks max2 : Nat) (create : Bool) (alloc schedA schedB : List Nat)
    (dl0 : Nat) (hb : max_fblks ≤ b) (hb2 : b2 < max2)
    (hsmall : b2 < WUFS_INODE_BPTRS - 1) (hz : bptr2 b2 = 0) :
    ((wufs_get_blk bptr disk b create max_fblks alloc schedA schedB dl0).res = Res.eio ∧
     (wufs_get_blk bptr disk b create max_fblks alloc schedA schedB dl0).bptr = bptr ∧
     (wufs_get_blk bptr disk b create max_fblks alloc schedA schedB dl0).disk = disk ∧
     (wufs_get_blk bptr disk b create max_fblks alloc schedA schedB dl0).got = [] ∧
     (wufs_get_blk bptr disk b create max_fblks alloc schedA schedB dl0).freed = [] ∧
     (wufs_get_blk bptr disk b create max_fblks alloc schedA schedB dl0).inodeTouched
        = false ∧
     (wufs_get_blk bptr disk b create max_fblks alloc schedA schedB dl0).dirtied = []) ∧
    (wufs_get_blk bptr2 disk2 b2 false max2 alloc schedA schedB dl0).res = Res.eio := by
  constructor
  · rw [wufs_get_blk, if_pos hb]
    exact ⟨rfl, rfl, rfl, rfl, rfl, rfl, rfl⟩
  · have h1 : ¬ max2 ≤ b2 := by omega
    have h2 : ¬ (WUFS_INODE_BPTRS - 1 ≤ b2) := by omega
    cases schedA <;> simp [wufs_get_blk, h1, h2, retrieve_direct, hz, DirOut.toOut]

/-- Witness for C8 (amended): block 10 against `max_fblks = 4`, and the
in-range hole at block 0 read with `create=false`. -/
theorem C8_amended_range_check_witness :
    ((4 : Nat) ≤ 10 ∧ (0 : Nat) < 4 ∧ 0 < WUFS_INODE_BPTRS - 1 ∧
      (fun _ : Nat => 0) 0 = 0) ∧
    (((wufs_get_blk (fun _ => 0) (fun _ _ => 0) 10 false 4 [] [] [] 0).res = Res.eio ∧
      (wufs_get_blk (fun _ => 0) (fun _ _ => 0) 10 false 4 [] [] [] 0).bptr = (fun _ => 0) ∧
      (wufs_get_blk (fun _ => 0) (fun _ _ => 0) 10 false 4 [] [] [] 0).disk = (fun _ _ => 0) ∧
      (wufs_get_blk (fun _ => 0) (fun _ _ => 0) 10 false 4 [] [] [] 0).got = [] ∧
      (wufs_get_blk (fun _ => 0) (fun _ _ => 0) 10 false 4 [] [] [] 0).freed = [] ∧
      (wufs_get_blk (fun _ => 0) (fun _ _ => 0) 10 false 4 [] [] [] 0).inodeTouched = false ∧
      (wufs_get_blk (fun _ => 0) (fun _ _ => 0) 10 false 4 [] [] [] 0).dirtied = []) ∧
     (wufs_get_blk (fun _ => 0) (fun _ _ => 0) 0 false 4 [] [] [] 0).res = Res.eio) :=
  ⟨⟨by decide, by decide, by decide, rfl⟩,
    C8_amended_range_check (fun _ => 0) (fun _ => 0) (fun _ _ => 0) (fun _ _ => 0)
      10 0 4 4 false [] [] [] 0 (by decide) (by decide) (by decide) rfl⟩

/-- C9 (amended): a direct-slot commit and a Stage A indirect-slot commit
update the inode's modification/change timestamps and mark the inode dirty;
a Stage B entry commit into an already-existing IndirectBlock instead marks
only that IndirectBlock's buffer dirty and does not touch the inode's
timestamps or dirty flag. -/
theorem C9_amended_commit_dirtying (bptr : Nat → Nat) (disk : Nat → Nat → Nat)
    (b max_fblks n L : Nat) (rest : List Nat) (hb : b < max_fblks) (hn : n ≠ 0) :
    (b < WUFS_INODE_BPTRS - 1 → bptr b = 0 →
      (wufs_get_blk bptr disk b true max_fblks (n :: rest) [] [] 0).got = [n] ∧
      (wufs_get_blk bptr disk b true max_fblks (n :: rest) [] [] 0).inodeTouched = true ∧
      (wufs_get_blk bptr disk b true max_fblks (n :: rest) [] [] 0).bhNew = true) ∧
    (WUFS_INODE_BPTRS - 1 ≤ b → bptr (WUFS_INODE_BPTRS - 1) = 0 →
      n ∈ (wufs_get_blk bptr disk b true max_fblks (n :: rest) [] [] 0).got ∧
      (wufs_get_blk bptr disk b true max_fblks (n :: rest) [] [] 0).inodeTouched = true) ∧
    (WUFS_INODE_BPTRS - 1 ≤ b → bptr (WUFS_INODE_BPTRS - 1) = L → L ≠ 0 →
      disk L (b - (WUFS_INODE_BPTRS - 1)) = 0 →
      (wufs_get_blk bptr disk b true max_fblks (n :: rest) [] [] 0).got = [n] ∧
      (wufs_get_blk bptr disk b true max_fblks (n :: rest) [] [] 0).inodeTouched = false ∧
      (wufs_get_blk bptr disk b true max_fblks (n :: rest) [] [] 0).dirtied = [L] ∧
      (wufs_get_blk bptr disk b true max_fblks (n :: rest) [] [] 0).bhNew = true) := by
  have h1 : ¬ max_fblks ≤ b := by omega
  refine ⟨?_, ?_, ?_⟩
  · intro hlt hz
    have h2 : ¬ (WUFS_INODE_BPTRS - 1 ≤ b) := by omega
    simp [wufs_get_blk, h1, h2, retrieve_direct, hz, hn, wufs_new_block, DirOut.toOut]
  · intro hge hz
    simp [wufs_get_blk, h1, hge, retrieve_indirect, hz, hn, wufs_new_block, IndOut.toOut]
  · intro hge hz hnz hd
    simp [wufs_get_blk, h1, hge, retrieve_indirect, start_indirection, hz, hnz, hd, hn,
      wufs_new_block, IndOut.toOut]

/-- Witness for C9 (amended): `max_fblks = 20`, indirect slot holding 5,
entry 0 of IndirectBlock 5 a hole, allocator handing out 11 — the Stage B
commit leaves the inode untouched and dirties only buffer 5. -/
theorem C9_amended_commit_dirtying_witness :
    ((7 : Nat) < 20 ∧ (11 : Nat) ≠ 0) ∧
    ((7 < WUFS_INODE_BPTRS - 1 → (fun i : Nat => if i = 7 then 5 else 0) 7 = 0 →
      (wufs_get_blk (fun i => if i = 7 then 5 else 0) (fun _ _ => 0) 7 true 20 [11] [] [] 0).got = [11] ∧
      (wufs_get_blk (fun i => if i = 7 then 5 else 0) (fun _ _ => 0) 7 true 20 [11] [] [] 0).inodeTouched = true ∧
      (wufs_get_blk (fun i => if i = 7 then 5 else 0) (fun _ _ => 0) 7 true 20 [11] [] [] 0).bhNew = true) ∧
    (WUFS_INODE_BPTRS - 1 ≤ 7 →
      (fun i : Nat => if i = 7 then 5 else 0) (WUFS_INODE_BPTRS - 1) = 0 →
      11 ∈ (wufs_get_blk (fun i => if i = 7 then 5 else 0) (fun _ _ => 0) 7 true 20 [11] [] [] 0).got ∧
      (wufs_get_blk (fun i => if i = 7 then 5 else 0) (fun _ _ => 0) 7 true 20 [11] [] [] 0).inodeTouched = true) ∧
    (WUFS_INODE_BPTRS - 1 ≤ 7 →
      (fun i : Nat => if i = 7 then 5 else 0) (WUFS_INODE_BPTRS - 1) = 5 → (5 : Nat) ≠ 0 →
      (fun _ _ : Nat => 0) 5 (7 - (WUFS_INODE_BPTRS - 1)) = 0 →
      (wufs_get_blk (fun i => if i = 7 then 5 else 0) (fun _ _ => 0) 7 true 20 [11] [] [] 0).got = [11] ∧
      (wufs_get_blk (fun i => if i = 7 then 5 else 0) (fun _ _ => 0) 7 true 20 [11] [] [] 0).inodeTouched = false ∧
      (wufs_get_blk (fun i => if i = 7 then 5 else 0) (fun _ _ => 0) 7 true 20 [11] [] [] 0).dirtied = [5] ∧
      (wufs_get_blk (fun i => if i = 7 then 5 else 0) (fun _ _ => 0) 7 true 20 [11] [] [] 0).bhNew = true)) :=
  ⟨⟨by decide, by decide⟩,
    C9_amended_commit_dirtying (fun i => if i = 7 then 5 else 0) (fun _ _ => 0)
      7 20 11 5 [] (by decide) (by decide)⟩
